import Mathlib

/-!
Verification of the Looped habit-tracking backend (src/index.js).

The service is a flat Express route table over a PostgreSQL store.  We embed
the persisted tables as lists of rows and each route handler as a pure
function from a database state (plus the request's parameters) to an HTTP
outcome and a new database state.  SQL queries become list operations:
`WHERE` is `List.filter`, `ORDER BY ... DESC` is an insertion sort on the
ordering key, `OFFSET`/`LIMIT` are `List.drop`/`List.take`, `INSERT` appends
a row, and `UPDATE` maps over the rows.

The progress-ledger routes (GET/POST/DELETE /streak/:id/progress) described
by the specification are not present in src/index.js; they are modelled from
the specification's words, and are marked as such in their doc comments.
-/

namespace Looped

/-- A row of the `streaks` table (columns selected by the routes:
`id, title, author, difficulty, description, participant_count, emoji`). -/
structure Streak where
  id : Nat
  title : String
  author : String
  difficulty : String
  description : String
  participant_count : Nat
  emoji : String
deriving DecidableEq

/-- A row of the `user_streaks` table: `(user_id, streak_id, joined_at)`.
`joined_at` is the `NOW()` timestamp of the join, as a number. -/
structure Membership where
  user_id : Nat
  streak_id : Nat
  joined_at : Nat
deriving DecidableEq

/-- A row of the `streak_progress` table: `(user_id, streak_id, date, done)`.
Dates are modelled as day numbers so that the calendar order is `≤` on `Nat`. -/
structure ProgressEntry where
  user_id : Nat
  streak_id : Nat
  date : Nat
  done : Bool
deriving DecidableEq

/-- The persisted store: the three tables the claims touch. -/
structure DB where
  streaks : List Streak
  user_streaks : List Membership
  streak_progress : List ProgressEntry
deriving DecidableEq

/-! ### Sorting (the embedding of SQL `ORDER BY`) -/

/-- Insert `x` into a list that is already sorted by `key` in descending
order, keeping it sorted. -/
def insertDescBy {α : Type} (key : α → Nat) (x : α) : List α → List α
  | [] => [x]
  | y :: ys => if key y ≤ key x then x :: y :: ys else y :: insertDescBy key x ys

/-- Sort a list by `key`, largest first: the embedding of `ORDER BY key DESC`. -/
def sortDescBy {α : Type} (key : α → Nat) : List α → List α
  | [] => []
  | x :: xs => insertDescBy key x (sortDescBy key xs)

/-- Insert `x` into an ascending list of dates, keeping it ascending. -/
def insertAsc (x : Nat) : List Nat → List Nat
  | [] => [x]
  | y :: ys => if x ≤ y then x :: y :: ys else y :: insertAsc x ys

/-- Sort dates ascending: the embedding of `ORDER BY date ASC`. -/
def sortAsc : List Nat → List Nat
  | [] => []
  | x :: xs => insertAsc x (sortAsc xs)

theorem mem_insertDescBy {α : Type} (key : α → Nat) (x a : α) (l : List α) :
    a ∈ insertDescBy key x l ↔ a = x ∨ a ∈ l := by
  induction l with
  | nil => simp [insertDescBy]
  | cons y ys ih =>
    by_cases h : key y ≤ key x
    · simp [insertDescBy, h]
    · simp [insertDescBy, h, ih]
      tauto

theorem mem_sortDescBy {α : Type} (key : α → Nat) (a : α) (l : List α) :
    a ∈ sortDescBy key l ↔ a ∈ l := by
  induction l with
  | nil => simp [sortDescBy]
  | cons x xs ih => simp [sortDescBy, mem_insertDescBy, ih]

theorem pairwise_insertDescBy {α : Type} (key : α → Nat) (x : α) (l : List α)
    (h : l.Pairwise (fun a b => key b ≤ key a)) :
    (insertDescBy key x l).Pairwise (fun a b => key b ≤ key a) := by
  induction l with
  | nil => simp [insertDescBy]
  | cons y ys ih =>
    rcases List.pairwise_cons.mp h with ⟨hy, hys⟩
    by_cases hle : key y ≤ key x
    · rw [insertDescBy, if_pos hle]
      refine List.pairwise_cons.mpr ⟨?_, h⟩
      intro z hz
      rcases List.mem_cons.mp hz with rfl | hz
      · exact hle
      · exact le_trans (hy z hz) hle
    · rw [insertDescBy, if_neg hle]
      refine List.pairwise_cons.mpr ⟨?_, ih hys⟩
      intro z hz
      rcases (mem_insertDescBy key x z ys).mp hz with rfl | hz
      · exact le_of_not_le hle
      · exact hy z hz

theorem pairwise_sortDescBy {α : Type} (key : α → Nat) (l : List α) :
    (sortDescBy key l).Pairwise (fun a b => key b ≤ key a) := by
  induction l with
  | nil => simp [sortDescBy]
  | cons x xs ih => exact pairwise_insertDescBy key x _ ih

theorem mem_insertAsc (x a : Nat) (l : List Nat) :
    a ∈ insertAsc x l ↔ a = x ∨ a ∈ l := by
  induction l with
  | nil => simp [insertAsc]
  | cons y ys ih =>
    by_cases h : x ≤ y
    · simp [insertAsc, h]
    · simp [insertAsc, h, ih]
      tauto

theorem mem_sortAsc (a : Nat) (l : List Nat) : a ∈ sortAsc l ↔ a ∈ l := by
  induction l with
  | nil => simp [sortAsc]
  | cons x xs ih => simp [sortAsc, mem_insertAsc, ih]

theorem pairwise_insertAsc (x : Nat) (l : List Nat)
    (h : l.Pairwise (fun a b => a ≤ b)) :
    (insertAsc x l).Pairwise (fun a b => a ≤ b) := by
  induction l with
  | nil => simp [insertAsc]
  | cons y ys ih =>
    rcases List.pairwise_cons.mp h with ⟨hy, hys⟩
    by_cases hle : x ≤ y
    · rw [insertAsc, if_pos hle]
      refine List.pairwise_cons.mpr ⟨?_, h⟩
      intro z hz
      rcases List.mem_cons.mp hz with rfl | hz
      · exact hle
      · exact le_trans hle (hy z hz)
    · rw [insertAsc, if_neg hle]
      refine List.pairwise_cons.mpr ⟨?_, ih hys⟩
      intro z hz
      rcases (mem_insertAsc x z ys).mp hz with rfl | hz
      · exact le_of_not_le hle
      · exact hy z hz

theorem pairwise_sortAsc (l : List Nat) :
    (sortAsc l).Pairwise (fun a b => a ≤ b) := by
  induction l with
  | nil => simp [sortAsc]
  | cons x xs ih => exact pairwise_insertAsc x _ ih

/-! ### Streak Catalog: GET /streaks (src/index.js lines 204-239) -/

/-- The optional `WHERE difficulty = $1` clause: the handler appends it only
when the `difficulty` query parameter is truthy (absent or empty string means
no filter). -/
def filterByDifficulty (streaks : List Streak) (difficulty : Option String) : List Streak :=
  match difficulty with
  | none => streaks
  | some d => if d = "" then streaks else streaks.filter (fun s => s.difficulty == d)

/-- GET /streaks: optional difficulty filter, `ORDER BY participant_count
DESC`, then `OFFSET $n LIMIT $m`. -/
def listStreaks (db : DB) (offset lim : Nat) (difficulty : Option String) : List Streak :=
  (((sortDescBy (fun s => s.participant_count)
      (filterByDifficulty db.streaks difficulty)).drop offset).take lim)

/-- The GET /streaks route as called over HTTP: `const \x7b offset = 0,
limit = 8, difficulty \x7d = req.query` supplies the defaults for omitted
query parameters (src/index.js line 206). -/
def getStreaksRoute (db : DB) (offset lim : Option Nat) (difficulty : Option String) : List Streak :=
  listStreaks db (offset.getD 0) (lim.getD 8) difficulty

/-! ### Membership Tracker: POST /streak/:id/join (src/index.js lines 273-319)
and GET /user/:userId/streaks (lines 322-347) -/

/-- An HTTP response body of the join route: the handler answers either
`res.status(...).json(\x7b error \x7d)` or `res.json(\x7b message \x7d)`
(a plain `res.json` carries status 200). -/
inductive JoinOutcome where
  | err (status : Nat) (error : String)
  | msg (status : Nat) (message : String)
deriving DecidableEq

/-- `SELECT id FROM streaks WHERE id = $1` has at least one row. -/
def streakExists (db : DB) (id : Nat) : Bool :=
  !(db.streaks.filter (fun s => s.id == id)).isEmpty

/-- `SELECT * FROM user_streaks WHERE user_id = $1 AND streak_id = $2` has at
least one row. -/
def hasMembership (db : DB) (userId streakId : Nat) : Bool :=
  !(db.user_streaks.filter (fun m => m.user_id == userId && m.streak_id == streakId)).isEmpty

/-- `INSERT INTO user_streaks (user_id, streak_id, joined_at) VALUES ($1, $2,
NOW())`. -/
def insertMembership (db : DB) (userId streakId now : Nat) : DB :=
  { db with user_streaks := db.user_streaks ++ [⟨userId, streakId, now⟩] }

/-- `UPDATE streaks SET participant_count = participant_count + 1 WHERE
id = $1`. -/
def incrParticipant (db : DB) (id : Nat) : DB :=
  { db with streaks := db.streaks.map (fun s =>
      if s.id == id then { s with participant_count := s.participant_count + 1 } else s) }

/-- POST /streak/:id/join.  The handler checks the body's `userId`, then that
the streak exists, then that the user has not already joined; only then it
runs the INSERT followed, as a separate query, by the counter UPDATE.
`updateFails` models the UPDATE at line 309 throwing after the INSERT at
line 303 succeeded: the `catch` at line 315 answers 500 and nothing rolls the
INSERT back or retries the UPDATE. -/
def joinStreak (db : DB) (id : Nat) (userId : Option Nat) (now : Nat)
    (updateFails : Bool) : JoinOutcome × DB :=
  match userId with
  | none => (.err 400 "User ID is required", db)
  | some uid =>
    if streakExists db id = false then
      (.err 404 "Streak not found", db)
    else if hasMembership db uid id then
      (.msg 400 "User already joined this streak", db)
    else
      let db1 := insertMembership db uid id now
      if updateFails then
        (.err 500 "Internal server error", db1)
      else
        (.msg 200 "Streak joined successfully", incrParticipant db1 id)

/-- The stored `participant_count` of the streak with the given id (`none`
when no such row exists). -/
def participantCount (db : DB) (id : Nat) : Option Nat :=
  (db.streaks.find? (fun s => s.id == id)).map (fun s => s.participant_count)

/-- GET /user/:userId/streaks: the join of `user_streaks` rows of this user
with their `streaks` rows, `ORDER BY us.joined_at DESC`; each result row
carries the streak columns and `joined_at`. -/
def listUserStreaks (db : DB) (userId : Nat) : List (Streak × Nat) :=
  sortDescBy (fun p => p.2)
    ((db.user_streaks.filter (fun m => m.user_id == userId)).flatMap
      (fun m => (db.streaks.filter (fun s => s.id == m.streak_id)).map
        (fun s => (s, m.joined_at))))

/-! ### Streak creation: POST /streaks (src/index.js lines 351-368) -/

/-- An outcome of the POST /streaks handler. `thrownReferenceError name`
models the handler body throwing a JavaScript `ReferenceError: name is not
defined` before any query ran and before any response was sent (the throw at
line 353 happens outside the `try` block, so the route's `catch` does not see
it either). -/
inductive CreateOutcome where
  | created (status : Nat) (row : Streak)
  | thrownReferenceError (name : String)
deriving DecidableEq

/-- The identifiers in scope in the body of the POST /streaks handler: the
destructuring `const \x7b title, author, difficulty, description,
participantCount \x7d = req.body` at line 352, the handler's own `req`, `res`
and `chosenEmoji`, and the module-level bindings of src/index.js.  `emoji`,
read at line 353, is not among them. -/
def createStreakScope : List String :=
  ["title", "author", "difficulty", "description", "participantCount",
   "req", "res", "chosenEmoji",
   "express", "pkg", "dotenv", "bcrypt", "jwt", "cors", "Pool", "app", "pool"]

/-- POST /streaks.  Line 353 evaluates `emoji || '..'`; `emoji` is an unbound
identifier, so the evaluation throws a ReferenceError before the INSERT at
lines 356-362 can run.  Were the identifier bound, the handler would insert
the row with `participantCount || 0` participants and answer 201 with the
returned row (`newId` models the id the database assigns; the INSERT's
RETURNING list carries no emoji column, modelled as the empty string). -/
def createStreak (db : DB) (newId : Nat) (title author difficulty descr : String)
    (reqParticipantCount : Option Nat) : CreateOutcome × DB :=
  if "emoji" ∈ createStreakScope then
    let row : Streak :=
      ⟨newId, title, author, difficulty, descr, reqParticipantCount.getD 0, ""⟩
    (.created 201 row, { db with streaks := db.streaks ++ [row] })
  else
    (.thrownReferenceError "emoji", db)

/-! ### Progress Ledger

The routes GET/POST/DELETE /streak/:id/progress described by the
specification (section 4.3 and the route table of section 6) are not present
in src/index.js; the definitions below are modelled from the specification's
words. -/

/-- The composite key test of a `streak_progress` row against a
`(userId, streakId, date)` triple. -/
def pkeyMatch (userId streakId date : Nat) (e : ProgressEntry) : Bool :=
  e.user_id == userId && e.streak_id == streakId && e.date == date

/-- The number of `streak_progress` rows holding a given key (the schema's
uniqueness constraint keeps it at most 1). -/
def countKey (db : DB) (userId streakId date : Nat) : Nat :=
  (db.streak_progress.filter (pkeyMatch userId streakId date)).length

/-- Modelled from the spec: the upsert at the heart of `markDone` — "if a
ProgressEntry for the key exists, set done=true (no-op if already true);
otherwise insert with done=true", resolving any conflict by update-in-place. -/
def upsertProgress (l : List ProgressEntry) (userId streakId date : Nat) :
    List ProgressEntry :=
  if l.any (pkeyMatch userId streakId date) then
    l.map (fun e => if pkeyMatch userId streakId date e then { e with done := true } else e)
  else
    l ++ [⟨userId, streakId, date, true⟩]

/-- Modelled from the spec: `markDone(userId, streakId, date=today if
omitted) -> (date)` — the POST /streak/:id/progress route, absent from
src/index.js.  It upserts the ProgressEntry for the key and answers
`\x7b message: "Marked done", date \x7d`. -/
def markDone (db : DB) (userId streakId : Nat) (date : Option Nat) (today : Nat) :
    (String × Nat) × DB :=
  let d := date.getD today
  (("Marked done", d),
   { db with streak_progress := upsertProgress db.streak_progress userId streakId d })

/-- The dates of this user's entries for this streak inside the inclusive
`[lo, hi]` range, ascending. -/
def progressBetween (db : DB) (userId streakId lo hi : Nat) : List Nat :=
  sortAsc ((db.streak_progress.filter (fun e =>
      e.user_id == userId && e.streak_id == streakId &&
      decide (lo ≤ e.date) && decide (e.date ≤ hi))).map (fun e => e.date))

/-- Modelled from the spec: `getProgress(userId, streakId, dateRange?) ->
sequence of date` — the GET /streak/:id/progress route, absent from
src/index.js.  With no range it defaults to the trailing 90-day window
ending today (90 days inclusive); otherwise it returns the dates inside the
inclusive `[start, end]` range, ascending. -/
def getProgress (db : DB) (userId streakId : Nat) (range : Option (Nat × Nat))
    (today : Nat) : List Nat :=
  match range with
  | some r => progressBetween db userId streakId r.1 r.2
  | none => progressBetween db userId streakId (today - 89) today

/-- Modelled from the spec: `deleteProgress(userId, streakId, date) ->
Success` — the DELETE /streak/:streakId/progress route, absent from
src/index.js.  It deletes the row for the key when present, succeeds as a
no-op when absent, and always answers `\x7b success: true \x7d`. -/
def deleteProgress (db : DB) (userId streakId date : Nat) : Bool × DB :=
  (true,
   { db with streak_progress :=
      db.streak_progress.filter (fun e => !(pkeyMatch userId streakId date e)) })

/-! ### Concrete states used by witnesses and counterexamples -/

/-- A store holding one streak (id 5, difficulty "easy", zero participants),
no memberships and no progress rows. -/
def dbOne : DB :=
  { streaks := [⟨5, "Pushups", "alice", "easy", "Do pushups daily", 0, ""⟩],
    user_streaks := [], streak_progress := [] }

/-! ### Lemmas about the join route -/

theorem streakExists_insertMembership (db : DB) (u s t id : Nat) :
    streakExists (insertMembership db u s t) id = streakExists db id := rfl

theorem hasMembership_incrParticipant (db : DB) (i u s : Nat) :
    hasMembership (incrParticipant db i) u s = hasMembership db u s := rfl

theorem participantCount_insertMembership (db : DB) (u s t id : Nat) :
    participantCount (insertMembership db u s t) id = participantCount db id := rfl

theorem incr_preserves_id (i : Nat) (s : Streak) :
    (if s.id == i then { s with participant_count := s.participant_count + 1 }
     else s).id = s.id := by
  split <;> rfl

theorem comp_id_incr (i id : Nat) :
    ((fun s : Streak => s.id == id) ∘ (fun s => if s.id == i then
        { s with participant_count := s.participant_count + 1 } else s))
      = fun s : Streak => s.id == id := by
  funext s
  rw [Function.comp_apply, incr_preserves_id]

theorem streakExists_incrParticipant (db : DB) (i id : Nat) :
    streakExists (incrParticipant db i) id = streakExists db id := by
  unfold streakExists incrParticipant
  dsimp only
  rw [List.filter_map, comp_id_incr]
  cases db.streaks.filter (fun s => s.id == id) <;> rfl

theorem hasMembership_insertMembership_self (db : DB) (uid sid t : Nat) :
    hasMembership (insertMembership db uid sid t) uid sid = true := by
  unfold hasMembership insertMembership
  dsimp only
  simp [List.filter_append, List.filter_cons]

theorem participantCount_incrParticipant (db : DB) (id : Nat) :
    participantCount (incrParticipant db id) id
      = (participantCount db id).map (fun n => n + 1) := by
  unfold participantCount incrParticipant
  dsimp only
  rw [List.find?_map, comp_id_incr]
  cases h : db.streaks.find? (fun s => s.id == id) with
  | none => rfl
  | some s =>
    have hs := List.find?_some h
    simp only [] at hs
    have hs2 : s.id = id := by simpa using hs
    simp [hs2]

/-! ### Claim theorems about the Membership Tracker -/

/-- C1: the claim states that the membership INSERT and the counter UPDATE of
POST /streak/:id/join form one atomic unit, so that no execution leaves a
membership row whose streak counter was not incremented.  The code runs them
as two separate queries with no transaction: this execution, in which the
UPDATE fails after the INSERT succeeded, answers 500 and leaves user 9's
membership row in place while streak 5's participant_count stays 0 — the
code neither rolls the INSERT back nor retries the UPDATE. -/
theorem C1_join_counter_failure_not_rolled_back :
    (joinStreak dbOne 5 (some 9) 100 true).1 = JoinOutcome.err 500 "Internal server error" ∧
    hasMembership (joinStreak dbOne 5 (some 9) 100 true).2 9 5 = true ∧
    participantCount (joinStreak dbOne 5 (some 9) 100 true).2 5 = some 0 :=
  ⟨rfl, rfl, rfl⟩

/-- C3: joining twice in sequence, when the streak exists and the user had
not joined, answers "Streak joined successfully" first and 400 "User already
joined this streak" second; the second call leaves the state unchanged, and
the participant counter of the streak rises by exactly 1 in total. -/
theorem C3_joinStreak_twice (db : DB) (id uid t1 t2 : Nat)
    (hex : streakExists db id = true)
    (hnew : hasMembership db uid id = false) :
    (joinStreak db id (some uid) t1 false).1 = JoinOutcome.msg 200 "Streak joined successfully" ∧
    (joinStreak (joinStreak db id (some uid) t1 false).2 id (some uid) t2 false).1
      = JoinOutcome.msg 400 "User already joined this streak" ∧
    (joinStreak (joinStreak db id (some uid) t1 false).2 id (some uid) t2 false).2
      = (joinStreak db id (some uid) t1 false).2 ∧
    participantCount (joinStreak db id (some uid) t1 false).2 id
      = (participantCount db id).map (fun n => n + 1) := by
  have h1 : joinStreak db id (some uid) t1 false
      = (JoinOutcome.msg 200 "Streak joined successfully",
         incrParticipant (insertMembership db uid id t1) id) := by
    simp [joinStreak, hex, hnew]
  have hex2 : streakExists (incrParticipant (insertMembership db uid id t1) id) id = true := by
    rw [streakExists_incrParticipant, streakExists_insertMembership]
    exact hex
  have hmem2 : hasMembership (incrParticipant (insertMembership db uid id t1) id) uid id = true := by
    rw [hasMembership_incrParticipant]
    exact hasMembership_insertMembership_self db uid id t1
  have h2 : joinStreak (incrParticipant (insertMembership db uid id t1) id) id (some uid) t2 false
      = (JoinOutcome.msg 400 "User already joined this streak",
         incrParticipant (insertMembership db uid id t1) id) := by
    simp [joinStreak, hex2, hmem2]
  refine ⟨by rw [h1], ?_, ?_, ?_⟩
  · rw [h1]
    simpa using congrArg Prod.fst h2
  · rw [h1]
    simpa using congrArg Prod.snd h2
  · rw [h1]
    rw [participantCount_incrParticipant, participantCount_insertMembership]

/-- Witness for C3: user 9 joins streak 5 of `dbOne` twice. -/
theorem C3_joinStreak_twice_witness :
    (joinStreak dbOne 5 (some 9) 10 false).1 = JoinOutcome.msg 200 "Streak joined successfully" ∧
    (joinStreak (joinStreak dbOne 5 (some 9) 10 false).2 5 (some 9) 20 false).1
      = JoinOutcome.msg 400 "User already joined this streak" ∧
    (joinStreak (joinStreak dbOne 5 (some 9) 10 false).2 5 (some 9) 20 false).2
      = (joinStreak dbOne 5 (some 9) 10 false).2 ∧
    participantCount (joinStreak dbOne 5 (some 9) 10 false).2 5
      = (participantCount dbOne 5).map (fun n => n + 1) :=
  C3_joinStreak_twice dbOne 5 9 10 20 (by decide) (by decide)

/-- C7: joining a streak id with no row answers 404 "Streak not found" and
changes neither table; a request whose body has no userId answers 400. -/
theorem C7_join_missing_and_notFound (db : DB) (id uid now : Nat) (f : Bool)
    (h : streakExists db id = false) :
    joinStreak db id (some uid) now f = (JoinOutcome.err 404 "Streak not found", db) ∧
    joinStreak db id none now f = (JoinOutcome.err 400 "User ID is required", db) := by
  constructor
  · simp [joinStreak, h]
  · rfl

/-- Witness for C7: `dbOne` has no streak 6. -/
theorem C7_join_missing_and_notFound_witness :
    joinStreak dbOne 6 (some 9) 3 false = (JoinOutcome.err 404 "Streak not found", dbOne) ∧
    joinStreak dbOne 6 none 3 false = (JoinOutcome.err 400 "User ID is required", dbOne) :=
  C7_join_missing_and_notFound dbOne 6 9 3 false (by decide)

/-! ### Claim theorems about the Streak Catalog -/

/-- C2: the claim states that POST /streaks always succeeds given a
well-formed body, inserting a streak row and answering 201 with the created
Streak.  In the code every request instead throws `ReferenceError: emoji is
not defined` at line 353, before the try block and before the INSERT: no row
is inserted and no 201 response is ever sent, whatever the input. -/
theorem C2_createStreak_never_responds_201 (db : DB) (newId : Nat)
    (title author difficulty descr : String) (pc : Option Nat) :
    (createStreak db newId title author difficulty descr pc).1
      = CreateOutcome.thrownReferenceError "emoji" ∧
    (createStreak db newId title author difficulty descr pc).2 = db := by
  have h : "emoji" ∉ createStreakScope := by decide
  unfold createStreak
  rw [if_neg h]
  exact ⟨rfl, rfl⟩

/-- C8: GET /streaks with a difficulty filter returns only streaks of that
difficulty, ordered by descending participant count, and an empty sequence
(not an error) when no streak matches. -/
theorem C8_listStreaks_difficulty_filter (db : DB) (off lim : Nat) (d : String)
    (hd : d ≠ "") :
    (∀ s ∈ listStreaks db off lim (some d), s.difficulty = d) ∧
    (listStreaks db off lim (some d)).Pairwise
      (fun a b => b.participant_count ≤ a.participant_count) ∧
    ((∀ s ∈ db.streaks, s.difficulty ≠ d) → listStreaks db off lim (some d) = []) := by
  refine ⟨?_, ?_, ?_⟩
  · intro s hs
    have h1 : s ∈ sortDescBy (fun s => s.participant_count)
        (filterByDifficulty db.streaks (some d)) :=
      List.drop_subset off _ (List.take_subset lim _ hs)
    have h2 : s ∈ filterByDifficulty db.streaks (some d) :=
      (mem_sortDescBy _ s _).mp h1
    unfold filterByDifficulty at h2
    dsimp only at h2
    rw [if_neg hd] at h2
    have h3 := (List.mem_filter.mp h2).2
    simpa using h3
  · have hp := pairwise_sortDescBy (fun s : Streak => s.participant_count)
      (filterByDifficulty db.streaks (some d))
    have h1 : List.Sublist (listStreaks db off lim (some d))
        (sortDescBy (fun s : Streak => s.participant_count)
          (filterByDifficulty db.streaks (some d))) :=
      (List.take_sublist lim _).trans (List.drop_sublist off _)
    exact List.Pairwise.sublist h1 hp
  · intro hnone
    have hfil : filterByDifficulty db.streaks (some d) = [] := by
      unfold filterByDifficulty
      dsimp only
      rw [if_neg hd, List.filter_eq_nil_iff]
      intro s hs
      simpa using hnone s hs
    unfold listStreaks
    rw [hfil]
    simp [sortDescBy]

/-- Witness for C8: filtering `dbOne` to difficulty "easy". -/
theorem C8_listStreaks_difficulty_filter_witness :
    (∀ s ∈ listStreaks dbOne 0 8 (some "easy"), s.difficulty = "easy") ∧
    (listStreaks dbOne 0 8 (some "easy")).Pairwise
      (fun a b => b.participant_count ≤ a.participant_count) ∧
    ((∀ s ∈ dbOne.streaks, s.difficulty ≠ "easy") → listStreaks dbOne 0 8 (some "easy") = []) :=
  C8_listStreaks_difficulty_filter dbOne 0 8 "easy" (by decide)

/-- C9: GET /user/:userId/streaks returns exactly the (streak row, joined_at)
pairs of the user's memberships, most recent join first. -/
theorem C9_listUserStreaks_spec (db : DB) (uid : Nat) :
    (listUserStreaks db uid).Pairwise (fun a b => b.2 ≤ a.2) ∧
    ∀ p : Streak × Nat, p ∈ listUserStreaks db uid ↔
      ∃ m, m ∈ db.user_streaks ∧ m.user_id = uid ∧ p.1 ∈ db.streaks ∧
        p.1.id = m.streak_id ∧ p.2 = m.joined_at := by
  constructor
  · exact pairwise_sortDescBy _ _
  · intro p
    unfold listUserStreaks
    rw [mem_sortDescBy]
    simp only [List.mem_flatMap, List.mem_filter, List.mem_map, beq_iff_eq]
    constructor
    · rintro ⟨m, ⟨hm, hmu⟩, s, ⟨hs, hsid⟩, heq⟩
      subst heq
      exact ⟨m, hm, hmu, hs, hsid, rfl⟩
    · rintro ⟨m, hm, hmu, hps, hpid, hpt⟩
      refine ⟨m, ⟨hm, hmu⟩, p.1, ⟨hps, hpid⟩, ?_⟩
      rw [← hpt]

/-- C10: with no query parameters, GET /streaks runs with offset 0 and
limit 8, so the response holds at most 8 streaks however many the store
holds. -/
theorem C10_getStreaksRoute_defaults (db : DB) :
    getStreaksRoute db none none none = listStreaks db 0 8 none ∧
    (getStreaksRoute db none none none).length ≤ 8 := by
  refine ⟨rfl, ?_⟩
  show (((sortDescBy (fun s => s.participant_count)
      (filterByDifficulty db.streaks none)).drop 0).take 8).length ≤ 8
  rw [List.length_take]
  exact Nat.min_le_left _ _

/-! ### Lemmas about the Progress Ledger -/

theorem comp_pkey_setDone (u s d : Nat) :
    (pkeyMatch u s d ∘ (fun e => if pkeyMatch u s d e then { e with done := true } else e))
      = pkeyMatch u s d := by
  funext e
  rw [Function.comp_apply]
  by_cases h : pkeyMatch u s d e = true
  · rw [if_pos h]
    rfl
  · rw [if_neg h]

theorem countFilter_upsert (u s d : Nat) (l : List ProgressEntry)
    (h : (l.filter (pkeyMatch u s d)).length ≤ 1) :
    ((upsertProgress l u s d).filter (pkeyMatch u s d)).length = 1 := by
  unfold upsertProgress
  by_cases hany : l.any (pkeyMatch u s d) = true
  · rw [if_pos hany, List.filter_map, comp_pkey_setDone, List.length_map]
    rcases List.any_eq_true.mp hany with ⟨e, he, hpe⟩
    have hmem : e ∈ l.filter (pkeyMatch u s d) := List.mem_filter.mpr ⟨he, hpe⟩
    have hpos : 0 < (l.filter (pkeyMatch u s d)).length :=
      List.length_pos.mpr (List.ne_nil_of_mem hmem)
    omega
  · rw [if_neg hany, List.filter_append]
    have hnil : l.filter (pkeyMatch u s d) = [] := by
      rw [List.filter_eq_nil_iff]
      intro a ha hpa
      exact hany (List.any_eq_true.mpr ⟨a, ha, hpa⟩)
    rw [hnil]
    simp [pkeyMatch]

theorem upsert_done (u s d : Nat) (l : List ProgressEntry) :
    ∀ e ∈ upsertProgress l u s d, pkeyMatch u s d e = true → e.done = true := by
  intro e he hpe
  unfold upsertProgress at he
  by_cases hany : l.any (pkeyMatch u s d) = true
  · rw [if_pos hany] at he
    rcases List.mem_map.mp he with ⟨a, ha, heq⟩
    by_cases hpa : pkeyMatch u s d a = true
    · rw [if_pos hpa] at heq
      rw [← heq]
    · rw [if_neg hpa] at heq
      subst heq
      exact absurd hpe hpa
  · rw [if_neg hany] at he
    rcases List.mem_append.mp he with h1 | h2
    · exact absurd (List.any_eq_true.mpr ⟨e, h1, hpe⟩) hany
    · rcases List.mem_singleton.mp h2 with rfl
      rfl

theorem countKey_deleteProgress (db : DB) (u sid d : Nat) :
    countKey (deleteProgress db u sid d).2 u sid d = 0 := by
  show ((db.streak_progress.filter (fun e => !(pkeyMatch u sid d e))).filter
    (pkeyMatch u sid d)).length = 0
  rw [List.filter_filter]
  have hfalse : (fun e => pkeyMatch u sid d e && !(pkeyMatch u sid d e))
      = fun _ : ProgressEntry => false := by
    funext e
    exact Bool.and_not_self _
  rw [hfalse]
  simp

/-! ### Claim theorems about the Progress Ledger -/

/-- C4: markDone is an idempotent upsert — two calls with the same
(user, streak, date) key both answer ("Marked done", date), afterwards
exactly one ProgressEntry holds the key and it has done = true; the calls
always answer success, so no uniqueness conflict reaches the caller. -/
theorem C4_markDone_idempotent (db : DB) (u s d t1 t2 : Nat)
    (hwf : countKey db u s d ≤ 1) :
    (markDone db u s (some d) t1).1 = ("Marked done", d) ∧
    (markDone (markDone db u s (some d) t1).2 u s (some d) t2).1 = ("Marked done", d) ∧
    countKey (markDone (markDone db u s (some d) t1).2 u s (some d) t2).2 u s d = 1 ∧
    ∀ e ∈ (markDone (markDone db u s (some d) t1).2 u s (some d) t2).2.streak_progress,
      pkeyMatch u s d e = true → e.done = true := by
  have h1 : countKey (markDone db u s (some d) t1).2 u s d = 1 :=
    countFilter_upsert u s d db.streak_progress hwf
  refine ⟨rfl, rfl, ?_, ?_⟩
  · exact countFilter_upsert u s d _ h1.le
  · exact upsert_done u s d _

/-- Witness for C4: marking (user 9, streak 5, date 7) done twice in
`dbOne`, whose ledger is empty. -/
theorem C4_markDone_idempotent_witness :
    (markDone dbOne 9 5 (some 7) 30).1 = ("Marked done", 7) ∧
    (markDone (markDone dbOne 9 5 (some 7) 30).2 9 5 (some 7) 31).1 = ("Marked done", 7) ∧
    countKey (markDone (markDone dbOne 9 5 (some 7) 30).2 9 5 (some 7) 31).2 9 5 7 = 1 ∧
    ∀ e ∈ (markDone (markDone dbOne 9 5 (some 7) 30).2 9 5 (some 7) 31).2.streak_progress,
      pkeyMatch 9 5 7 e = true → e.done = true :=
  C4_markDone_idempotent dbOne 9 5 7 30 31 (by decide)

/-- C5: with an explicit range, getProgress returns exactly the dates of
this user's entries for this streak inside the inclusive [lo, hi] range,
ascending, and none outside it; with no range it runs on the trailing 90-day
window ending today. -/
theorem C5_getProgress_range (db : DB) (u sid lo hi today : Nat) :
    (∀ d ∈ getProgress db u sid (some (lo, hi)) today,
        lo ≤ d ∧ d ≤ hi ∧ ∃ e ∈ db.streak_progress,
          e.user_id = u ∧ e.streak_id = sid ∧ e.date = d) ∧
    (∀ e ∈ db.streak_progress, e.user_id = u → e.streak_id = sid →
        lo ≤ e.date → e.date ≤ hi →
        e.date ∈ getProgress db u sid (some (lo, hi)) today) ∧
    (getProgress db u sid (some (lo, hi)) today).Pairwise (fun a b => a ≤ b) ∧
    getProgress db u sid none today
      = getProgress db u sid (some (today - 89, today)) today := by
  refine ⟨?_, ?_, ?_, rfl⟩
  · intro d hd
    have hd2 := (mem_sortAsc d _).mp hd
    rcases List.mem_map.mp hd2 with ⟨e, he, rfl⟩
    rcases List.mem_filter.mp he with ⟨hel, hpe⟩
    simp only [Bool.and_eq_true, beq_iff_eq, decide_eq_true_eq] at hpe
    obtain ⟨⟨⟨h1, h2⟩, h3⟩, h4⟩ := hpe
    exact ⟨h3, h4, e, hel, h1, h2, rfl⟩
  · intro e he h1 h2 h3 h4
    apply (mem_sortAsc _ _).mpr
    apply List.mem_map.mpr
    refine ⟨e, List.mem_filter.mpr ⟨he, ?_⟩, rfl⟩
    simp [h1, h2, h3, h4]
  · exact pairwise_sortAsc _

/-- C6: deleteProgress always answers success; afterwards no ProgressEntry
holds the key; when the key was absent the state is untouched; and deleting
right after markDone leaves the key absent. -/
theorem C6_deleteProgress_idempotent (db : DB) (u sid d : Nat) :
    (deleteProgress db u sid d).1 = true ∧
    countKey (deleteProgress db u sid d).2 u sid d = 0 ∧
    (countKey db u sid d = 0 → (deleteProgress db u sid d).2 = db) ∧
    ∀ t, countKey (deleteProgress (markDone db u sid (some d) t).2 u sid d).2 u sid d = 0 := by
  refine ⟨rfl, countKey_deleteProgress db u sid d, ?_,
    fun t => countKey_deleteProgress _ u sid d⟩
  intro h0
  have hnil : db.streak_progress.filter (pkeyMatch u sid d) = [] :=
    List.length_eq_zero.mp h0
  have hno := List.filter_eq_nil_iff.mp hnil
  have hself : db.streak_progress.filter (fun e => !(pkeyMatch u sid d e))
      = db.streak_progress := by
    rw [List.filter_eq_self]
    intro e he
    cases hpk : pkeyMatch u sid d e with
    | false => rfl
    | true => exact absurd hpk (hno e he)
  show { db with streak_progress := db.streak_progress.filter (fun e => !(pkeyMatch u sid d e)) } = db
  rw [hself]

end Looped
